import Mathlib

/-
  Shallow embedding of src/techniques/dynamic-function-resolution/POC/ror13_resolver.c

  Machine integers are modelled as Nat with explicit reduction modulo 2^32
  where the C code computes in DWORD (32-bit unsigned) arithmetic.
  Null-terminated C strings are modelled as the list of their bytes before
  the terminator (each in 0..255); UNICODE_STRING buffers are modelled as the
  list of the 16-bit code units the source loop visits (each in 0..65535).
-/

namespace Ror13

/-- The 32-bit rotate right by 13 from lines 23 and 43 of the source:
hash is shifted right by 13 and ored with hash shifted left by 19, reduced
to 32 bits as the DWORD type does. -/
def ror13 (h : Nat) : Nat :=
  (h >>> 13) ||| ((h <<< 19) % 2 ^ 32)

/-- The value the cast at line 24 of the source produces. The argument of
ror13_hash is const char pointer and char is signed on the target (MSVC)
platform, so a byte at or above 0x80 is sign-extended when cast to DWORD:
byte b with b at least 128 denotes the signed value b - 256, whose DWORD
image is b + 0xFFFFFF00. Bytes below 0x80 are unchanged. -/
def charToDword (c : Nat) : Nat :=
  if c < 128 then c else c + 0xFFFFFF00

/-- One iteration of the loop of ror13_hash (source lines 22 to 26). -/
def ror13_step (h c : Nat) : Nat :=
  (ror13 h + charToDword c) % 2 ^ 32

/-- Embedding of ror13_hash (source lines 20 to 28): fold ror13_step over
the bytes of the string, accumulator starting at 0. -/
def ror13_hash (s : List Nat) : Nat :=
  s.foldl ror13_step 0

/-- The uppercase fold of lines 39 to 41 of the source: a code unit in the
ASCII lowercase range has 0x20 subtracted, all others pass through. -/
def toUpperW (c : Nat) : Nat :=
  if 97 ≤ c ∧ c ≤ 122 then c - 32 else c

/-- One iteration of the loop of unicode_ror13_hash (source lines 35 to 45).
WCHAR is unsigned, so the cast to DWORD at line 44 is plain zero extension. -/
def wide_step (h c : Nat) : Nat :=
  (ror13 h + toUpperW c) % 2 ^ 32

/-- Embedding of unicode_ror13_hash (source lines 31 to 48): fold wide_step
over the 16-bit code units of the UNICODE_STRING, accumulator starting at 0. -/
def unicode_ror13_hash (s : List Nat) : Nat :=
  s.foldl wide_step 0

/-- The byte codes of an ASCII Lean string literal, used to transcribe the
string literals appearing in the source. -/
def codes (s : String) : List Nat :=
  s.data.map Char.toNat

/-- Reference fold written from the words of the spec (section 4.1): the
character itself, as an unsigned numeric value, is added after the rotation,
with no sign extension. Used to compare against ror13_hash. -/
def ror13_hash_unsigned (s : List Nat) : Nat :=
  s.foldl (fun h c => (ror13 h + c) % 2 ^ 32) 0

end Ror13

namespace Ror13

/-- Outcome of a walk over memory the code has not validated: either the
code runs to a value, or it dereferences an unreadable pointer and the
process faults. Used to model the unchecked loader walk of
find_module_by_hash (source lines 54 to 82). -/
inductive MemOutcome (α : Type) where
  | ok : α → MemOutcome α
  | fault : MemOutcome α
deriving DecidableEq, Repr

/-- In-memory content of a mapped image, as find_function_by_hash reads it
(source lines 88 to 129): the base address, the DOS magic at offset 0, the
NT signature at e_lfanew, the export directory RVA from the data directory,
and the three parallel export arrays. NumberOfNames is the length of names;
ordinals is parallel to names; functions is indexed by ordinal. -/
structure Image where
  base : Nat
  e_magic : Nat
  nt_signature : Nat
  export_rva : Nat
  names : List (List Nat)
  functions : List Nat
  ordinals : List Nat
deriving DecidableEq, Repr

/-- One LDR_DATA_TABLE_ENTRY as find_module_by_hash reads it (source lines
66 to 75): the BaseDllName code units and the DllBase. A none DllBase models
a NULL base pointer; a some carries the image content mapped at that base,
which is what a later find_function_by_hash dereferences. -/
structure ModuleEntry where
  baseDllName : List Nat
  dllBase : Option Image
deriving DecidableEq, Repr

/-- The loop of find_module_by_hash over the InMemoryOrderModuleList entries
in list order (source lines 65 to 79): hash each BaseDllName with
unicode_ror13_hash, return the DllBase of the first entry whose hash equals
module_hash, or none (the NULL return at line 81) after a full traversal. -/
def find_module_list (mods : List ModuleEntry) (module_hash : Nat) : Option Image :=
  match mods with
  | [] => none
  | e :: rest =>
    if unicode_ror13_hash e.baseDllName = module_hash then e.dllBase
    else find_module_list rest module_hash

/-- Embedding of find_module_by_hash (source lines 54 to 82). The PEB Ldr
pointer and the list it anchors are modelled as an Option: none stands for a
loader anchor that is null or unreadable. The source performs no check on
pPeb, pLdr or the list links before dereferencing them (lines 61 to 63), so
on a none anchor the walk faults instead of returning. -/
def find_module_by_hash (ldr : Option (List ModuleEntry)) (module_hash : Nat) :
    MemOutcome (Option Image) :=
  match ldr with
  | none => MemOutcome.fault
  | some mods => MemOutcome.ok (find_module_list mods module_hash)

/-- Return site taken by find_function_by_hash, one constructor per return
statement of the source: found carries the computed address (line 124);
nullModule is the NULL return at line 89; badDosMagic at line 93;
badNtSignature at line 101; noExportDir at line 108; noMatch at line 128. -/
inductive FindFunctionResult where
  | found : Nat → FindFunctionResult
  | nullModule : FindFunctionResult
  | badDosMagic : FindFunctionResult
  | badNtSignature : FindFunctionResult
  | noExportDir : FindFunctionResult
  | noMatch : FindFunctionResult
deriving DecidableEq, Repr

/-- The FARPROC value each return site yields in the source: the address on
a match, NULL (0) on every other path. -/
def FindFunctionResult.toAddr : FindFunctionResult → Nat
  | FindFunctionResult.found a => a
  | _ => 0

/-- The scan loop of find_function_by_hash (source lines 118 to 126),
walking the name array in stored order with running index i: hash each name
with ror13_hash, and on the first match return base plus
functions[ordinals[i]]; none if the whole array is exhausted. -/
def scan_exports (base : Nat) (functions ordinals : List Nat) (function_hash : Nat) :
    Nat → List (List Nat) → Option Nat
  | _, [] => none
  | i, name :: rest =>
    if ror13_hash name = function_hash then
      some (base + functions.getD (ordinals.getD i 0) 0)
    else scan_exports base functions ordinals function_hash (i + 1) rest

/-- Embedding of find_function_by_hash (source lines 88 to 129) with the
return site made explicit. The module argument is the HMODULE: none is a
NULL handle, some carries the image content at the base. Checks in source
order: NULL handle, DOS magic 0x5A4D, NT signature 0x4550, zero export
directory RVA, then the exhaustive name scan. -/
def find_function_tagged (hModule : Option Image) (function_hash : Nat) :
    FindFunctionResult :=
  match hModule with
  | none => FindFunctionResult.nullModule
  | some img =>
    if img.e_magic ≠ 0x5A4D then FindFunctionResult.badDosMagic
    else if img.nt_signature ≠ 0x4550 then FindFunctionResult.badNtSignature
    else if img.export_rva = 0 then FindFunctionResult.noExportDir
    else
      match scan_exports img.base img.functions img.ordinals function_hash 0 img.names with
      | some a => FindFunctionResult.found a
      | none => FindFunctionResult.noMatch

/-- The FARPROC value find_function_by_hash actually returns: the resolved
address, or 0 for the NULL returned on every failure path. -/
def find_function_by_hash (hModule : Option Image) (function_hash : Nat) : Nat :=
  (find_function_tagged hModule function_hash).toAddr

/-- The cache capacity MAX_CACHE_ENTRIES (source line 135). -/
def MAX_CACHE_ENTRIES : Nat := 256

/-- CACHE_ENTRY (source lines 137 to 141). -/
structure CacheEntry where
  module_hash : Nat
  function_hash : Nat
  address : Nat
deriving DecidableEq, Repr

/-- The cache lookup loop of resolve_cached (source lines 148 to 153): scan
g_cache in index order and return the address of the first entry whose two
hashes match. The cache array with its count is modelled as the list of its
first g_cache_count entries. -/
def cache_lookup (cache : List CacheEntry) (module_hash function_hash : Nat) : Option Nat :=
  match cache with
  | [] => none
  | e :: rest =>
    if e.module_hash = module_hash ∧ e.function_hash = function_hash then some e.address
    else cache_lookup rest module_hash function_hash

/-- Result of one resolve_cached call: the returned FARPROC value (0 for
NULL), the cache contents after the call, and the number of uncached
resolution passes performed, each pass being one module enumeration plus
one export scan (source lines 156 and 157). A cache hit performs zero. -/
structure ResolveOut where
  addr : Nat
  cache : List CacheEntry
  scans : Nat
deriving DecidableEq, Repr

/-- Embedding of resolve_cached (source lines 146 to 168) in the state where
the loader list is readable, passed in as mods. On a cache hit the address
is returned at once. On a miss, find_module_by_hash then
find_function_by_hash run; the result is appended to the cache only when the
address is non NULL and the count is below MAX_CACHE_ENTRIES (line 160). -/
def resolve_cached (mods : List ModuleEntry) (cache : List CacheEntry)
    (module_hash function_hash : Nat) : ResolveOut :=
  match cache_lookup cache module_hash function_hash with
  | some a => ⟨a, cache, 0⟩
  | none =>
    let hModule := find_module_list mods module_hash
    let addr := find_function_by_hash hModule function_hash
    if addr ≠ 0 ∧ cache.length < MAX_CACHE_ENTRIES then
      ⟨addr, cache ++ [⟨module_hash, function_hash, addr⟩], 1⟩
    else ⟨addr, cache, 1⟩

/-- The module name table of generate_hashes (source lines 235 to 241),
without the NULL sentinel. -/
def generate_modules : List String :=
  ["KERNEL32.DLL", "NTDLL.DLL", "USER32.DLL", "ADVAPI32.DLL"]

/-- The hashes the module loop of generate_hashes computes (source lines
252 to 255): the narrow ror13_hash of each module name string. -/
def generate_module_hashes : List Nat :=
  generate_modules.map (fun n => ror13_hash (codes n))

end Ror13

namespace Ror13

/-- Concrete image used to exercise the export scanner: a well formed image
at base 4096 exporting CreateThread (ordinal 2) and VirtualAlloc
(ordinal 0), names stored in non alphabetic order. -/
def imgK32 : Image :=
  ⟨4096, 0x5A4D, 0x4550, 0x100,
   [codes "CreateThread", codes "VirtualAlloc"],
   [0x1111, 0x2222, 0x3333],
   [2, 0]⟩

/-- Concrete loaded module list with a single entry named KERNEL32.DLL
mapped to imgK32. -/
def modsFixture : List ModuleEntry :=
  [⟨codes "KERNEL32.DLL", some imgK32⟩]

/-- A cache filled to MAX_CACHE_ENTRIES with distinct entries, used to
exercise the capacity bound. -/
def cache256 : List CacheEntry :=
  (List.range 256).map (fun i => ⟨i, i, i + 1⟩)

end Ror13

namespace Ror13

lemma foldl_step_eq_unsigned : ∀ (s : List Nat) (h : Nat), (∀ c ∈ s, c < 128) →
    s.foldl ror13_step h = s.foldl (fun a c => (ror13 a + c) % 2 ^ 32) h := by
  intro s
  induction s with
  | nil => intro h _; rfl
  | cons c rest ih =>
    intro h hc
    have hcl : c < 128 := hc c (List.mem_cons_self c rest)
    simp only [List.foldl_cons]
    rw [show ror13_step h c = (ror13 h + c) % 2 ^ 32 by
      unfold ror13_step charToDword; rw [if_pos hcl]]
    exact ih _ (fun d hd => hc d (List.mem_cons_of_mem c hd))

lemma foldl_step_lt : ∀ (s : List Nat) (h : Nat), h < 2 ^ 32 →
    s.foldl ror13_step h < 2 ^ 32 := by
  intro s
  induction s with
  | nil => intro h hh; exact hh
  | cons c rest ih =>
    intro h _
    simp only [List.foldl_cons]
    exact ih _ (Nat.mod_lt _ (by norm_num))

lemma toUpperW_sub32 {c : Nat} (h1 : 97 ≤ c) (h2 : c ≤ 122) :
    toUpperW (c - 32) = toUpperW c := by
  unfold toUpperW
  rw [if_neg (by omega), if_pos ⟨h1, h2⟩]

lemma foldl_narrow_eq_wide : ∀ (s : List Nat) (h : Nat),
    (∀ c ∈ s, c < 128 ∧ ¬(97 ≤ c ∧ c ≤ 122)) →
    s.foldl ror13_step h = s.foldl wide_step h := by
  intro s
  induction s with
  | nil => intro h _; rfl
  | cons c rest ih =>
    intro h hc
    obtain ⟨hlt, hup⟩ := hc c (List.mem_cons_self c rest)
    simp only [List.foldl_cons]
    rw [show ror13_step h c = wide_step h c by
      unfold ror13_step wide_step charToDword toUpperW
      rw [if_pos hlt, if_neg hup]]
    exact ih _ (fun d hd => hc d (List.mem_cons_of_mem c hd))

lemma find_module_list_none_of_nomatch : ∀ (mods : List ModuleEntry) (m : Nat),
    (∀ e ∈ mods, unicode_ror13_hash e.baseDllName ≠ m) →
    find_module_list mods m = none := by
  intro mods
  induction mods with
  | nil => intro m _; rfl
  | cons e rest ih =>
    intro m hm
    unfold find_module_list
    rw [if_neg (hm e (List.mem_cons_self e rest))]
    exact ih m (fun d hd => hm d (List.mem_cons_of_mem e hd))

lemma find_module_list_first : ∀ (pre : List ModuleEntry) (e : ModuleEntry)
    (rest : List ModuleEntry) (m : Nat),
    (∀ d ∈ pre, unicode_ror13_hash d.baseDllName ≠ m) →
    unicode_ror13_hash e.baseDllName = m →
    find_module_list (pre ++ e :: rest) m = e.dllBase := by
  intro pre
  induction pre with
  | nil =>
    intro e rest m _ he
    unfold find_module_list
    rw [List.nil_append]
    simp [he]
  | cons d pre2 ih =>
    intro e rest m hpre he
    rw [List.cons_append]
    unfold find_module_list
    rw [if_neg (hpre d (List.mem_cons_self d pre2))]
    exact ih e rest m (fun x hx => hpre x (List.mem_cons_of_mem d hx)) he

lemma scan_exports_none_of_nomatch : ∀ (names : List (List Nat)) (b : Nat)
    (fns ords : List Nat) (f i : Nat),
    (∀ n ∈ names, ror13_hash n ≠ f) →
    scan_exports b fns ords f i names = none := by
  intro names
  induction names with
  | nil => intro b fns ords f i _; rfl
  | cons n rest ih =>
    intro b fns ords f i hn
    unfold scan_exports
    rw [if_neg (hn n (List.mem_cons_self n rest))]
    exact ih b fns ords f (i + 1) (fun x hx => hn x (List.mem_cons_of_mem n hx))

lemma scan_exports_first : ∀ (pre : List (List Nat)) (nm : List Nat)
    (rest : List (List Nat)) (b : Nat) (fns ords : List Nat) (f i : Nat),
    (∀ n ∈ pre, ror13_hash n ≠ f) → ror13_hash nm = f →
    scan_exports b fns ords f i (pre ++ nm :: rest)
      = some (b + fns.getD (ords.getD (i + pre.length) 0) 0) := by
  intro pre
  induction pre with
  | nil =>
    intro nm rest b fns ords f i _ hnm
    rw [List.nil_append]
    unfold scan_exports
    simp [hnm]
  | cons n pre2 ih =>
    intro nm rest b fns ords f i hpre hnm
    rw [List.cons_append]
    unfold scan_exports
    rw [if_neg (hpre n (List.mem_cons_self n pre2))]
    rw [ih nm rest b fns ords f (i + 1)
      (fun x hx => hpre x (List.mem_cons_of_mem n hx)) hnm]
    have hidx : i + 1 + pre2.length = i + (n :: pre2).length := by
      simp only [List.length_cons]; omega
    rw [hidx]

lemma cache_lookup_append_self : ∀ (cache : List CacheEntry) (m f a : Nat),
    cache_lookup cache m f = none →
    cache_lookup (cache ++ [⟨m, f, a⟩]) m f = some a := by
  intro cache
  induction cache with
  | nil => intro m f a _; simp [cache_lookup]
  | cons e rest ih =>
    intro m f a hmiss
    rw [List.cons_append]
    unfold cache_lookup at hmiss ⊢
    by_cases hc : e.module_hash = m ∧ e.function_hash = f
    · rw [if_pos hc] at hmiss; cases hmiss
    · rw [if_neg hc] at hmiss ⊢
      exact ih m f a hmiss

lemma resolve_cached_miss (mods : List ModuleEntry) (cache : List CacheEntry)
    (m f : Nat) (hmiss : cache_lookup cache m f = none) :
    (resolve_cached mods cache m f).addr
      = find_function_by_hash (find_module_list mods m) f := by
  unfold resolve_cached
  rw [hmiss]
  split
  · rename_i a heq
    cases heq
  · dsimp only
    split
    · rfl
    · rfl

end Ror13

namespace Ror13

lemma resolve_cached_hit (mods : List ModuleEntry) (cache : List CacheEntry)
    (m f a : Nat) (hhit : cache_lookup cache m f = some a) :
    resolve_cached mods cache m f = ⟨a, cache, 0⟩ := by
  unfold resolve_cached
  rw [hhit]

lemma resolve_cached_miss_eq (mods : List ModuleEntry) (cache : List CacheEntry)
    (m f : Nat) (hmiss : cache_lookup cache m f = none) :
    resolve_cached mods cache m f
      = if find_function_by_hash (find_module_list mods m) f ≠ 0
            ∧ cache.length < MAX_CACHE_ENTRIES then
          ⟨find_function_by_hash (find_module_list mods m) f,
            cache ++ [⟨m, f, find_function_by_hash (find_module_list mods m) f⟩], 1⟩
        else ⟨find_function_by_hash (find_module_list mods m) f, cache, 1⟩ := by
  unfold resolve_cached
  rw [hmiss]

/-- C1: the source defines HASH_VIRTUALALLOC 0x91AFCA54, HASH_CREATETHREAD
0x3F9287AE and HASH_KERNEL32 0x6A4ABC5B, and the spec repeats them as golden
vectors. Evaluating the hash functions of the source shows VirtualAlloc
matches, but CreateThread hashes to 0xCA2BD06B, not 0x3F9287AE, and the wide
hash of KERNEL32.DLL is 0x6E2BCA17, not 0x6A4ABC5B: the constants at source
lines 175 and 186 disagree with the hash functions they are meant for. -/
theorem golden_constant_divergence :
    ror13_hash (codes "VirtualAlloc") = 0x91AFCA54
    ∧ ror13_hash (codes "CreateThread") = 0xCA2BD06B
    ∧ ror13_hash (codes "CreateThread") ≠ 0x3F9287AE
    ∧ unicode_ror13_hash (codes "KERNEL32.DLL") = 0x6E2BCA17
    ∧ unicode_ror13_hash (codes "KERNEL32.DLL") ≠ 0x6A4ABC5B := by
  refine ⟨by decide, by decide, by decide, by decide, by decide⟩

/-- C2 counterexample: on the byte 0xFF the source hash adds the DWORD cast
of a signed char, 0xFFFFFFFF, while the fold of the claim adds the unsigned
value 255, so the two disagree on a one byte string. -/
theorem ror13_hash_signext_counterexample :
    ror13_hash [255] = 0xFFFFFFFF ∧ ror13_hash_unsigned [255] = 255
    ∧ ror13_hash [255] ≠ ror13_hash_unsigned [255] := by
  refine ⟨by decide, by decide, by decide⟩

/-- C2 (amended): for strings of ASCII bytes, all below 0x80, ror13_hash
equals the reference fold that rotates right by 13 and adds the unsigned
character value modulo 2 to the 32; the accumulator always stays below 2 to
the 32, so the computation is total, and the hash is case-sensitive, for
example on Sleep versus sleep. Bytes at or above 0x80 are excluded because
the source sign-extends them. -/
theorem ror13_hash_ascii_unsigned_fold :
    (∀ s : List Nat, (∀ c ∈ s, c < 128) →
      ror13_hash s = ror13_hash_unsigned s ∧ ror13_hash s < 2 ^ 32)
    ∧ ror13_hash (codes "Sleep") ≠ ror13_hash (codes "sleep") := by
  constructor
  · intro s hs
    exact ⟨foldl_step_eq_unsigned s 0 hs, foldl_step_lt s 0 (by norm_num)⟩
  · decide

/-- C2 witness: the amended statement evaluated on the concrete ASCII string
VirtualAlloc. -/
theorem ror13_hash_ascii_unsigned_fold_witness :
    ror13_hash (codes "VirtualAlloc") = ror13_hash_unsigned (codes "VirtualAlloc")
    ∧ ror13_hash (codes "VirtualAlloc") < 2 ^ 32 :=
  ror13_hash_ascii_unsigned_fold.1 (codes "VirtualAlloc") (by decide)

/-- C3: unicode_ror13_hash is case-insensitive over ASCII letters: replacing
one code unit in the lowercase range by its uppercase counterpart, that is
subtracting 32, leaves the hash unchanged, at any position; in particular
the hashes of KERNEL32.DLL and kernel32.dll coincide. -/
theorem unicode_hash_case_insensitive :
    (∀ (pre : List Nat) (c : Nat) (post : List Nat), 97 ≤ c → c ≤ 122 →
      unicode_ror13_hash (pre ++ (c - 32) :: post)
        = unicode_ror13_hash (pre ++ c :: post))
    ∧ unicode_ror13_hash (codes "KERNEL32.DLL")
        = unicode_ror13_hash (codes "kernel32.dll") := by
  constructor
  · intro pre c post h1 h2
    unfold unicode_ror13_hash
    rw [List.foldl_append, List.foldl_append]
    simp only [List.foldl_cons]
    rw [show wide_step (List.foldl wide_step 0 pre) (c - 32)
          = wide_step (List.foldl wide_step 0 pre) c by
      unfold wide_step; rw [toUpperW_sub32 h1 h2]]
  · decide

/-- C3 witness: replacing the lowercase letter k, code 107, by its uppercase
counterpart at the head of a concrete code unit sequence leaves the wide
hash unchanged. -/
theorem unicode_hash_case_insensitive_witness :
    unicode_ror13_hash ([] ++ (107 - 32) :: [101, 108]) 
      = unicode_ror13_hash ([] ++ 107 :: [101, 108]) :=
  unicode_hash_case_insensitive.1 [] 107 [101, 108] (by decide) (by decide)

/-- C10: on strings whose characters are all ASCII values below 128 and
outside the lowercase range, the narrow and the wide hash agree, and the
module hash list the generate_hashes utility computes with the narrow hash
equals the list the wide hash would give on the same names. -/
theorem narrow_wide_hash_agree_on_upper_ascii :
    (∀ s : List Nat, (∀ c ∈ s, c < 128 ∧ ¬(97 ≤ c ∧ c ≤ 122)) →
      ror13_hash s = unicode_ror13_hash s)
    ∧ generate_module_hashes
        = generate_modules.map (fun n => unicode_ror13_hash (codes n)) := by
  constructor
  · intro s hs
    exact foldl_narrow_eq_wide s 0 hs
  · decide

/-- C10 witness: the agreement evaluated on the concrete all uppercase name
KERNEL32.DLL. -/
theorem narrow_wide_hash_agree_on_upper_ascii_witness :
    ror13_hash (codes "KERNEL32.DLL") = unicode_ror13_hash (codes "KERNEL32.DLL") :=
  narrow_wide_hash_agree_on_upper_ascii.1 (codes "KERNEL32.DLL") (by decide)

end Ror13

namespace Ror13

/-- C4: find_module_list walks the module list in list order: when no entry
hashes to the target it returns none, the NULL return standing for
NotFoundModule; when some entry matches it returns the DllBase of the first
matching entry, entries before it all failing the comparison; and on a cache
miss a resolve over a list with no matching module returns the NULL address,
reporting the not found outcome. -/
theorem find_module_first_match_and_notfound :
    (∀ (mods : List ModuleEntry) (m : Nat),
      (∀ e ∈ mods, unicode_ror13_hash e.baseDllName ≠ m) →
      find_module_list mods m = none)
    ∧ (∀ (pre : List ModuleEntry) (e : ModuleEntry) (rest : List ModuleEntry) (m : Nat),
      (∀ d ∈ pre, unicode_ror13_hash d.baseDllName ≠ m) →
      unicode_ror13_hash e.baseDllName = m →
      find_module_list (pre ++ e :: rest) m = e.dllBase)
    ∧ (∀ (mods : List ModuleEntry) (cache : List CacheEntry) (m f : Nat),
      cache_lookup cache m f = none →
      (∀ e ∈ mods, unicode_ror13_hash e.baseDllName ≠ m) →
      (resolve_cached mods cache m f).addr = 0) := by
  refine ⟨find_module_list_none_of_nomatch, find_module_list_first, ?_⟩
  intro mods cache m f hmiss hnone
  rw [resolve_cached_miss mods cache m f hmiss,
      find_module_list_none_of_nomatch mods m hnone]
  rfl

/-- C4 witness: on the concrete one module list the unmatched hash 12345
yields none from the walk and a NULL address from an uncached resolve. -/
theorem find_module_first_match_and_notfound_witness :
    find_module_list modsFixture 12345 = none
    ∧ (resolve_cached modsFixture [] 12345 7).addr = 0 :=
  ⟨find_module_first_match_and_notfound.1 modsFixture 12345 (by decide),
   find_module_first_match_and_notfound.2.2 modsFixture [] 12345 7 (by decide) (by decide)⟩

/-- C5 counterexample: with the loader anchor unreadable, modelled as a none
Ldr value, the walk of find_module_by_hash faults at the unchecked
dereference of source line 63 instead of returning the ordinary NULL value
that stands for NotFoundModule. -/
theorem find_module_null_anchor_faults :
    find_module_by_hash none 0 = MemOutcome.fault
    ∧ find_module_by_hash none 0 ≠ MemOutcome.ok none := by
  refine ⟨rfl, by decide⟩

/-- C5 (amended): find_module_by_hash performs no validation of the loader
anchor: on an unreadable anchor it dereferences the unchecked memory and
faults, for every target hash; only when the anchor and list are readable
does a full traversal without match return the ordinary NULL value standing
for NotFoundModule. -/
theorem find_module_no_anchor_check :
    (∀ m : Nat, find_module_by_hash none m = MemOutcome.fault)
    ∧ (∀ (mods : List ModuleEntry) (m : Nat),
      (∀ e ∈ mods, unicode_ror13_hash e.baseDllName ≠ m) →
      find_module_by_hash (some mods) m = MemOutcome.ok none) := by
  constructor
  · intro m
    rfl
  · intro mods m hm
    unfold find_module_by_hash
    dsimp only
    rw [find_module_list_none_of_nomatch mods m hm]

/-- C5 witness: the amended statement evaluated on a readable one module
list with an unmatched hash. -/
theorem find_module_no_anchor_check_witness :
    find_module_by_hash (some modsFixture) 12345 = MemOutcome.ok none :=
  find_module_no_anchor_check.2 modsFixture 12345 (by decide)

/-- C6: find_function checks the DOS magic then the NT signature, a mismatch
of either yielding the respective invalid image return with NULL value;
a zero export directory RVA yields the no export return with NULL value;
otherwise the name array is scanned exhaustively in stored order, the first
name hashing to the target resolving through the ordinal mapping to base
plus functions[ordinals[i]]; no match over the whole array yields the no
match return with NULL value. -/
theorem find_function_spec :
    ∀ (img : Image) (f : Nat),
    (img.e_magic ≠ 0x5A4D →
      find_function_tagged (some img) f = FindFunctionResult.badDosMagic
      ∧ find_function_by_hash (some img) f = 0)
    ∧ (img.e_magic = 0x5A4D → img.nt_signature ≠ 0x4550 →
      find_function_tagged (some img) f = FindFunctionResult.badNtSignature
      ∧ find_function_by_hash (some img) f = 0)
    ∧ (img.e_magic = 0x5A4D → img.nt_signature = 0x4550 → img.export_rva = 0 →
      find_function_tagged (some img) f = FindFunctionResult.noExportDir
      ∧ find_function_by_hash (some img) f = 0)
    ∧ (img.e_magic = 0x5A4D → img.nt_signature = 0x4550 → img.export_rva ≠ 0 →
      (∀ n ∈ img.names, ror13_hash n ≠ f) →
      find_function_tagged (some img) f = FindFunctionResult.noMatch
      ∧ find_function_by_hash (some img) f = 0)
    ∧ (∀ (pre : List (List Nat)) (nm : List Nat) (rest : List (List Nat)),
      img.e_magic = 0x5A4D → img.nt_signature = 0x4550 → img.export_rva ≠ 0 →
      img.names = pre ++ nm :: rest →
      (∀ n ∈ pre, ror13_hash n ≠ f) → ror13_hash nm = f →
      find_function_by_hash (some img) f
        = img.base + img.functions.getD (img.ordinals.getD pre.length 0) 0) := by
  intro img f
  refine ⟨?_, ?_, ?_, ?_, ?_⟩
  · intro h1
    have ht : find_function_tagged (some img) f = FindFunctionResult.badDosMagic := by
      unfold find_function_tagged
      dsimp only
      rw [if_pos h1]
    exact ⟨ht, by unfold find_function_by_hash; rw [ht]; rfl⟩
  · intro h1 h2
    have ht : find_function_tagged (some img) f = FindFunctionResult.badNtSignature := by
      unfold find_function_tagged
      dsimp only
      rw [if_neg (fun hc => hc h1), if_pos h2]
    exact ⟨ht, by unfold find_function_by_hash; rw [ht]; rfl⟩
  · intro h1 h2 h3
    have ht : find_function_tagged (some img) f = FindFunctionResult.noExportDir := by
      unfold find_function_tagged
      dsimp only
      rw [if_neg (fun hc => hc h1), if_neg (fun hc => hc h2), if_pos h3]
    exact ⟨ht, by unfold find_function_by_hash; rw [ht]; rfl⟩
  · intro h1 h2 h3 hn
    have hs : scan_exports img.base img.functions img.ordinals f 0 img.names = none :=
      scan_exports_none_of_nomatch img.names img.base img.functions img.ordinals f 0 hn
    have ht : find_function_tagged (some img) f = FindFunctionResult.noMatch := by
      unfold find_function_tagged
      dsimp only
      rw [if_neg (fun hc => hc h1), if_neg (fun hc => hc h2), if_neg h3, hs]
    exact ⟨ht, by unfold find_function_by_hash; rw [ht]; rfl⟩
  · intro pre nm rest h1 h2 h3 hnames hpre hnm
    have hs : scan_exports img.base img.functions img.ordinals f 0 img.names
        = some (img.base + img.functions.getD (img.ordinals.getD pre.length 0) 0) := by
      rw [hnames, scan_exports_first pre nm rest img.base img.functions img.ordinals f 0 hpre hnm,
        Nat.zero_add]
    have ht : find_function_tagged (some img) f
        = FindFunctionResult.found
            (img.base + img.functions.getD (img.ordinals.getD pre.length 0) 0) := by
      unfold find_function_tagged
      dsimp only
      rw [if_neg (fun hc => hc h1), if_neg (fun hc => hc h2), if_neg h3, hs]
    unfold find_function_by_hash
    rw [ht]
    rfl

/-- C6 witness: on the concrete image the scanner skips the non matching
first name CreateThread and resolves VirtualAlloc, name index 1, through
ordinal 0 to base 4096 plus offset 0x1111. -/
theorem find_function_spec_witness :
    find_function_by_hash (some imgK32) 0x91AFCA54
      = imgK32.base + imgK32.functions.getD (imgK32.ordinals.getD 1 0) 0 :=
  (find_function_spec imgK32 0x91AFCA54).2.2.2.2
    [codes "CreateThread"] (codes "VirtualAlloc") [] rfl rfl (by decide)
    rfl (by decide) (by decide)

end Ror13

namespace Ror13

/-- C7: when a resolve succeeds with a non NULL address while the cache is
below MAX_CACHE_ENTRIES, an immediately repeated resolve with the same two
hashes returns the same address, leaves the cache as it is, and performs
zero uncached resolution passes: it is answered from the cache. -/
theorem resolve_cached_hit_after_success :
    ∀ (mods : List ModuleEntry) (cache : List CacheEntry) (m f a : Nat),
    cache.length < MAX_CACHE_ENTRIES →
    (resolve_cached mods cache m f).addr = a → a ≠ 0 →
    resolve_cached mods (resolve_cached mods cache m f).cache m f
      = ⟨a, (resolve_cached mods cache m f).cache, 0⟩ := by
  intro mods cache m f a hlen haddr hne
  cases hl : cache_lookup cache m f with
  | some b =>
    have h1 : resolve_cached mods cache m f = ⟨b, cache, 0⟩ :=
      resolve_cached_hit mods cache m f b hl
    rw [h1] at haddr
    dsimp only at haddr
    rw [h1]
    dsimp only
    rw [resolve_cached_hit mods cache m f b hl, haddr]
  | none =>
    have hra : find_function_by_hash (find_module_list mods m) f = a := by
      rw [← haddr, resolve_cached_miss mods cache m f hl]
    have h1 : resolve_cached mods cache m f = ⟨a, cache ++ [⟨m, f, a⟩], 1⟩ := by
      rw [resolve_cached_miss_eq mods cache m f hl, hra, if_pos ⟨hne, hlen⟩]
    rw [h1]
    dsimp only
    exact resolve_cached_hit mods (cache ++ [⟨m, f, a⟩]) m f a
      (cache_lookup_append_self cache m f a hl)

/-- C7 witness: on the concrete module list an uncached resolve of
VirtualAlloc in KERNEL32.DLL succeeds with address 8465, and the immediately
repeated call is answered from the cache that call filled: same address,
unchanged cache, zero passes. -/
theorem resolve_cached_hit_after_success_witness :
    resolve_cached modsFixture
        (resolve_cached modsFixture [] 1848363543 2444216916).cache 1848363543 2444216916
      = ⟨8465, (resolve_cached modsFixture [] 1848363543 2444216916).cache, 0⟩ :=
  resolve_cached_hit_after_success modsFixture [] 1848363543 2444216916 8465
    (by decide) (by decide) (by decide)

/-- C8: a resolve that returns the NULL address, whatever the failure cause,
leaves the cache exactly unchanged, so any later resolve against any module
list starts from the same cache as if the failed call had not happened. -/
theorem resolve_failure_cache_unchanged :
    ∀ (mods : List ModuleEntry) (cache : List CacheEntry) (m f : Nat),
    (resolve_cached mods cache m f).addr = 0 →
    (resolve_cached mods cache m f).cache = cache
    ∧ ∀ (mods2 : List ModuleEntry),
        resolve_cached mods2 (resolve_cached mods cache m f).cache m f
          = resolve_cached mods2 cache m f := by
  intro mods cache m f h0
  have hc : (resolve_cached mods cache m f).cache = cache := by
    cases hl : cache_lookup cache m f with
    | some b =>
      rw [resolve_cached_hit mods cache m f b hl]
    | none =>
      rw [resolve_cached_miss_eq mods cache m f hl] at h0 ⊢
      by_cases hcond : find_function_by_hash (find_module_list mods m) f ≠ 0
          ∧ cache.length < MAX_CACHE_ENTRIES
      · rw [if_pos hcond] at h0
        exact absurd h0 hcond.1
      · rw [if_neg hcond]
  exact ⟨hc, fun mods2 => by rw [hc]⟩

/-- C8 witness: a resolve against an empty module list fails and leaves the
concrete starting cache empty. -/
theorem resolve_failure_cache_unchanged_witness :
    (resolve_cached [] [] 1 2).cache = [] :=
  (resolve_failure_cache_unchanged [] [] 1 2 (by decide)).1

/-- C9: the cache never grows past MAX_CACHE_ENTRIES: a call starting at or
below the bound ends at or below it; once the count reaches the bound the
cache is left exactly as it is, the insert being silently skipped; the cache
is only ever extended at the tail, never evicted or modified; and on a miss
with a full cache the returned address is still the one the uncached module
walk plus export scan computes. -/
theorem cache_capacity_invariant :
    ∀ (mods : List ModuleEntry) (cache : List CacheEntry) (m f : Nat),
    (cache.length ≤ MAX_CACHE_ENTRIES →
      (resolve_cached mods cache m f).cache.length ≤ MAX_CACHE_ENTRIES)
    ∧ (MAX_CACHE_ENTRIES ≤ cache.length →
      (resolve_cached mods cache m f).cache = cache)
    ∧ (∃ tail, (resolve_cached mods cache m f).cache = cache ++ tail)
    ∧ (MAX_CACHE_ENTRIES ≤ cache.length → cache_lookup cache m f = none →
      (resolve_cached mods cache m f).addr
        = find_function_by_hash (find_module_list mods m) f) := by
  intro mods cache m f
  cases hl : cache_lookup cache m f with
  | some b =>
    rw [resolve_cached_hit mods cache m f b hl]
    refine ⟨fun h => h, fun _ => rfl, ⟨[], (List.append_nil cache).symm⟩, fun _ hn => ?_⟩
    cases hn
  | none =>
    rw [resolve_cached_miss_eq mods cache m f hl]
    by_cases hcond : find_function_by_hash (find_module_list mods m) f ≠ 0
        ∧ cache.length < MAX_CACHE_ENTRIES
    · rw [if_pos hcond]
      have hlt : cache.length < MAX_CACHE_ENTRIES := hcond.2
      refine ⟨fun _ => ?_, fun hge => ?_, ⟨[⟨m, f, _⟩], rfl⟩, fun _ _ => rfl⟩
      · dsimp only
        rw [List.length_append, List.length_singleton]
        omega
      · exact absurd hlt (by omega)
    · rw [if_neg hcond]
      exact ⟨fun h => h, fun _ => rfl, ⟨[], (List.append_nil cache).symm⟩, fun _ _ => rfl⟩

set_option maxRecDepth 8192 in
/-- C9 witness: with the concrete cache already holding 256 entries, a miss
on the hash pair 999, 999 leaves the cache exactly as it was, keeps the
count at the bound, and still returns the address the uncached path
computes. -/
theorem cache_capacity_invariant_witness :
    (resolve_cached modsFixture cache256 999 999).cache.length ≤ MAX_CACHE_ENTRIES
    ∧ (resolve_cached modsFixture cache256 999 999).cache = cache256
    ∧ (resolve_cached modsFixture cache256 999 999).addr
        = find_function_by_hash (find_module_list modsFixture 999) 999 :=
  ⟨(cache_capacity_invariant modsFixture cache256 999 999).1 (by decide),
   (cache_capacity_invariant modsFixture cache256 999 999).2.1 (by decide),
   (cache_capacity_invariant modsFixture cache256 999 999).2.2.2 (by decide) (by decide)⟩

end Ror13
